import Mathlib

/-!
Verification of the lingo.dev Python SDK core: chunk partitioning
(`LingoDotDevEngine._extract_payload_chunks`, `_count_words_in_record`),
chunk merging (`_localize_raw`), the retry machinery
(`RetryHandler.should_retry`, `calculate_backoff`, `execute_with_retry`),
and the error classification (`LingoDevAPIError.is_retryable`).

Python values reachable from JSON-like payloads are modelled by `PyValue`;
Python `dict`s are modelled as insertion-ordered association lists whose
keys are unique.  Python `float` arithmetic is modelled over `ℚ`.
-/

namespace LingoSDK

/-- A JSON-like Python value: a string, a list, a dict (insertion-ordered
association list), or anything else (numbers, booleans, None, ...). -/
inductive PyValue where
  | vstr (s : String)
  | vlist (xs : List PyValue)
  | vdict (xs : List (String × PyValue))
  | vother

/-- Token counter over the characters of a string: counts the maximal runs
of non-whitespace characters, `inWord` recording whether the previous
character was inside such a run. -/
def countTokens : List Char → Bool → Nat
  | [], _ => 0
  | c :: cs, inWord =>
    if c.isWhitespace then countTokens cs false
    else (if inWord then 0 else 1) + countTokens cs true

/-- `len([word for word in payload.strip().split() if word])`: the number
of non-empty whitespace-delimited tokens of a Python string, i.e. the
number of maximal non-whitespace runs. -/
def pyWordCount (s : String) : Nat :=
  countTokens s.toList false

mutual
/-- `LingoDotDevEngine._count_words_in_record`: recursively counts words in
lists (sum over items), dicts (sum over values), strings (token count),
and returns 0 for anything else. -/
def count_words_in_record : PyValue → Nat
  | .vstr s => pyWordCount s
  | .vlist xs => count_words_list xs
  | .vdict xs => count_words_entries xs
  | .vother => 0

/-- Word count of a Python list: sum of the items' counts. -/
def count_words_list : List PyValue → Nat
  | [] => 0
  | x :: xs => count_words_in_record x + count_words_list xs

/-- Word count of a Python dict: sum of the values' counts (keys ignored). -/
def count_words_entries : List (String × PyValue) → Nat
  | [] => 0
  | kv :: xs => count_words_in_record kv.2 + count_words_entries xs
end

/-- A content payload / chunk: a Python dict in insertion order. -/
abbrev Payload := List (String × PyValue)

/-- The loop body of `_extract_payload_chunks`: walk the remaining entries,
holding the current chunk `cur` and its item count `cnt`; after adding each
entry close the chunk when the word count exceeds `size_cap`, the item count
reaches `item_cap`, or the key just added is the payload's last key
(`key == list(payload.keys())[-1]`).  Entries left in `cur` when the loop
ends are dropped, exactly as in the Python code. -/
def extract_chunks_go (item_cap size_cap : Nat) (lastKey : String) :
    Payload → Payload → Nat → List Payload
  | [], _, _ => []
  | (k, v) :: rest, cur, cnt =>
    let cur2 := cur ++ [(k, v)]
    let cnt2 := cnt + 1
    if count_words_entries cur2 > size_cap ∨ cnt2 ≥ item_cap ∨ k = lastKey then
      cur2 :: extract_chunks_go item_cap size_cap lastKey rest [] 0
    else
      extract_chunks_go item_cap size_cap lastKey rest cur2 cnt2

/-- `LingoDotDevEngine._extract_payload_chunks` with
`item_cap = config.batch_size` and `size_cap = config.ideal_batch_item_size`. -/
def extract_payload_chunks (item_cap size_cap : Nat) (payload : Payload) :
    List Payload :=
  match payload.getLast? with
  | none => []
  | some last => extract_chunks_go item_cap size_cap last.1 payload [] 0

/-- Python dict item assignment `d[k] = v`: overwrite in place when the key
is present, append otherwise. -/
def dict_insert (d : Payload) (k : String) (v : PyValue) : Payload :=
  if (d.map Prod.fst).contains k then
    d.map (fun kv => if kv.1 = k then (k, v) else kv)
  else
    d ++ [(k, v)]

/-- Python `result.update(chunk)`: item assignment for each entry of the
chunk, in order. -/
def dict_update (d : Payload) (chunk : Payload) : Payload :=
  chunk.foldl (fun acc kv => dict_insert acc kv.1 kv.2) d

/-- The merge loop of `_localize_raw`: `result = {}` then
`result.update(chunk)` over the processed chunks in chunk order. -/
def merge_chunks (chunks : List Payload) : Payload :=
  chunks.foldl dict_update []

/-! ## Retry machinery (`retry.py`, `exceptions.py`, `models.py`) -/

/-- The exceptions relevant to the retry machinery.  `lingoAPIError`,
`lingoNetworkError` and `lingoOther` are `LingoDevError` subclasses
(`lingoOther` standing for the subclasses that are neither API nor network
errors); `rawHTTPError` is a `requests.exceptions.HTTPError` carrying a
response with a status code; `rawConnectionError` stands for connection /
timeout exceptions (no response attribute); `rawOther` is any other
non-`LingoDevError` exception without a response attribute. -/
inductive PyExc where
  | lingoAPIError (status : Nat)
  | lingoNetworkError
  | lingoOther
  | rawHTTPError (status : Nat)
  | rawConnectionError
  | rawOther
deriving DecidableEq

/-- Whether the exception is a `LingoDevError`. -/
def PyExc.is_lingo : PyExc → Bool
  | .lingoAPIError _ | .lingoNetworkError | .lingoOther => true
  | _ => false

/-- `LingoDevAPIError.is_retryable`: retry server errors and rate
limiting, via the fixed set `{429, 500, 502, 503, 504}`. -/
def api_is_retryable (status : Nat) : Bool :=
  status = 429 ∨ status = 500 ∨ status = 502 ∨ status = 503 ∨ status = 504

/-- `models.RetryConfiguration` (pydantic guarantees
`0 ≤ max_retries ≤ 10`, `0.1 ≤ backoff_factor ≤ 2.0`,
`1.0 ≤ max_backoff ≤ 300.0`; Python floats are modelled over `ℚ`). -/
structure RetryConfiguration where
  max_retries : Nat := 3
  backoff_factor : ℚ := 1/2
  retry_statuses : List Nat := [429, 500, 502, 503, 504]
  max_backoff : ℚ := 60
  jitter : Bool := true
deriving DecidableEq

/-- The classification part of `RetryHandler.should_retry` (everything
after the attempt-cap check): `LingoDevAPIError` / `LingoDevNetworkError`
defer to their `is_retryable`; other `LingoDevError`s fall through to the
final `return False`; requests connection/timeout errors (and the standard
`ConnectionError` / `TimeoutError`) retry; a `requests` `HTTPError` with a
response retries iff its status is in `config.retry_statuses`; everything
else does not retry. -/
def classify_retryable (cfg : RetryConfiguration) : PyExc → Bool
  | .lingoAPIError s => api_is_retryable s
  | .lingoNetworkError => true
  | .lingoOther => false
  | .rawHTTPError s => cfg.retry_statuses.contains s
  | .rawConnectionError => true
  | .rawOther => false

/-- `RetryHandler.should_retry` (the `AsyncRetryHandler` version has the
same structure): return `False` once `attempt ≥ config.max_retries`,
otherwise classify the exception. -/
def should_retry (cfg : RetryConfiguration) (e : PyExc) (attempt : Nat) : Bool :=
  if attempt ≥ cfg.max_retries then false
  else classify_retryable cfg e

/-- `RetryHandler.calculate_backoff`:
`backoff_factor * 2^(attempt-1)`, capped at `max_backoff`, then inflated by
`backoff * 0.25 * random.random()` when jitter is enabled.  `r` models the
value drawn from `random.random()`, so `0 ≤ r < 1`. -/
def calculate_backoff (cfg : RetryConfiguration) (r : ℚ) (attempt : Nat) : ℚ :=
  let backoff := cfg.backoff_factor * 2 ^ (attempt - 1)
  let capped := min backoff cfg.max_backoff
  if cfg.jitter then capped + capped * (1/4) * r else capped

/-- `AsyncRetryHandler.calculate_backoff`: the duplicated async copy of the
same computation. -/
def async_calculate_backoff (cfg : RetryConfiguration) (r : ℚ) (attempt : Nat) : ℚ :=
  let backoff := cfg.backoff_factor * 2 ^ (attempt - 1)
  let capped := min backoff cfg.max_backoff
  if cfg.jitter then capped + capped * (1/4) * r else capped

/-- The wrapping step of `execute_with_retry`: an exception that is not a
`LingoDevError` is converted with `create_api_error_from_response` when it
has a `response` attribute (keeping the response's status code) and with
`create_network_error_from_exception` otherwise. -/
def wrap_error : PyExc → PyExc
  | .rawHTTPError s => .lingoAPIError s
  | .rawConnectionError => .lingoNetworkError
  | .rawOther => .lingoNetworkError
  | e => e

/-- One record of the retry history (the timing fields of the Python dict
are irrelevant to control flow and are omitted). -/
structure RetryRecord where
  attempt : Nat
  exc : PyExc
deriving DecidableEq

/-- The retry context attached to a `LingoDevRetryExhaustedError`. -/
structure RetryContextM where
  attempt : Nat
  max_attempts : Nat
  last_exception : PyExc
  retry_history : List RetryRecord
deriving DecidableEq

/-- Outcome of `execute_with_retry`: a result, a raised
`LingoDevRetryExhaustedError`, or the unreachable `RuntimeError` after the
loop. -/
inductive RetryResult (α : Type) where
  | ok (a : α)
  | exhausted (ctx : RetryContextM)
  | loopEnd

/-- The `for attempt in range(1, max_attempts + 1)` loop of
`RetryHandler.execute_with_retry`.  The operation is modelled by
`op : Nat → Except PyExc α`, giving the outcome of each 1-based attempt.
`fuel` is the number of loop iterations left. -/
def execute_loop {α : Type} (cfg : RetryConfiguration)
    (op : Nat → Except PyExc α) (max_attempts : Nat) :
    Nat → Nat → List RetryRecord → RetryResult α
  | 0, _, _ => .loopEnd
  | fuel + 1, attempt, hist =>
    match op attempt with
    | .ok a => .ok a
    | .error e0 =>
      let e := wrap_error e0
      let hist2 := hist ++ [⟨attempt, e⟩]
      if ¬ should_retry cfg e attempt ∨ attempt ≥ max_attempts then
        .exhausted ⟨attempt, max_attempts, e, hist2⟩
      else
        execute_loop cfg op max_attempts fuel (attempt + 1) hist2

/-- `RetryHandler.execute_with_retry`:
`max_attempts = max(1, config.max_retries)`, attempts numbered from 1. -/
def execute_with_retry {α : Type} (cfg : RetryConfiguration)
    (op : Nat → Except PyExc α) : RetryResult α :=
  let max_attempts := max 1 cfg.max_retries
  execute_loop cfg op max_attempts max_attempts 1 []

/-! ## Dispatch and progress reporting (`_localize_raw`) -/

/-- Python 3 `round` to an integer: round half to even. -/
def pyRound (q : ℚ) : ℤ :=
  if q - ⌊q⌋ < 1/2 then ⌊q⌋
  else if q - ⌊q⌋ > 1/2 then ⌊q⌋ + 1
  else if ⌊q⌋ % 2 = 0 then ⌊q⌋ else ⌊q⌋ + 1

/-- The percentages passed to the progress callback by the sequential loop
of `_localize_raw`: for the chunk at 0-based index `i`,
`round(((i + 1) / total) * 100)`. -/
def sequential_progress (total : Nat) : Nat → List Payload → List ℤ
  | _, [] => []
  | i, _ :: rest =>
    pyRound (((i : ℚ) + 1) / (total : ℚ) * 100) ::
      sequential_progress total (i + 1) rest

/-- Observable control flow of one `_localize_raw` call: which dispatch
branch ran, and the percentages the progress callback received (in call
order). -/
structure LocalizeTrace where
  usedConcurrent : Bool
  progressCalls : List ℤ
deriving DecidableEq

/-- The dispatch decision and progress reporting of `_localize_raw`:
the concurrent `asyncio.gather` branch runs only under
`concurrent and not progress_callback`; otherwise the sequential loop runs
and invokes the callback (when supplied) once per chunk. -/
def localize_raw_trace (item_cap size_cap : Nat) (payload : Payload)
    (has_callback concurrent : Bool) : LocalizeTrace :=
  let chunks := extract_payload_chunks item_cap size_cap payload
  if concurrent && !has_callback then
    { usedConcurrent := true, progressCalls := [] }
  else
    { usedConcurrent := false,
      progressCalls :=
        if has_callback then sequential_progress chunks.length 0 chunks
        else [] }

/-! ## Spec-modelled components

The repository's tests (`tests/test_engine.py`,
`tests/test_async_core_methods.py`, `tests/test_performance_integration.py`)
exercise an engine retry-delay method `_calculate_retry_delay` and a
semaphore-guarded concurrent dispatcher `_alocalize_raw`
(`max_concurrent_requests`), neither of which is present under `src/`.
They are modelled here from the spec. -/

/-- Modelled from the spec: the engine's hint-aware retry-delay computation
(`LingoDotDevEngine._calculate_retry_delay`, tested in
`tests/test_engine.py` but missing from `src/`).  Per the spec:
`base_delay * 2^(attempt_index - 1)`, capped at a configured maximum; if the
failure carries a numerically valid server-supplied minimum-wait hint the
delay is the larger of the hint and the exponential value; the result is
then inflated by a random jitter fraction (`r` uniform in `[0, 1)`, scaled
by the configured jitter ratio).  An absent or numerically invalid hint is
`none`. -/
def calculate_retry_delay (base_delay max_delay jitter_ratio r : ℚ)
    (attempt : Nat) (hint : Option ℚ) : ℚ :=
  let expo := min (base_delay * 2 ^ (attempt - 1)) max_delay
  let core := match hint with
    | some h => max h expo
    | none => expo
  core + core * jitter_ratio * r

/-- State of the concurrent dispatcher: chunks not yet started, chunk sends
currently in flight (each holding one semaphore permit), free semaphore
permits, and completed chunks. -/
structure DispatchState where
  pending : Nat
  inFlight : Nat
  permits : Nat
  completed : Nat
deriving DecidableEq

/-- Modelled from the spec: one scheduling step of the semaphore-guarded
concurrent dispatcher (`_alocalize_raw` with `max_concurrent_requests`,
tested in `tests/test_async_core_methods.py` but missing from `src/`).
A chunk send starts only after acquiring a free permit; on completion
(success or failure) it releases its permit. -/
inductive DispatchStep : DispatchState → DispatchState → Prop where
  | start (s : DispatchState) (hp : 0 < s.pending) (hq : 0 < s.permits) :
      DispatchStep s ⟨s.pending - 1, s.inFlight + 1, s.permits - 1, s.completed⟩
  | finish (s : DispatchState) (hf : 0 < s.inFlight) :
      DispatchStep s ⟨s.pending, s.inFlight - 1, s.permits + 1, s.completed + 1⟩

/-- The dispatcher's initial state: all chunks pending, nothing in flight,
a counting semaphore holding `limit` permits. -/
def dispatch_init (numChunks limit : Nat) : DispatchState :=
  ⟨numChunks, 0, limit, 0⟩

/-- States an execution of the dispatcher can reach. -/
def DispatchReachable (numChunks limit : Nat) (s : DispatchState) : Prop :=
  Relation.ReflTransGen DispatchStep (dispatch_init numChunks limit) s

/-- The payload of the spec's partitioning scenario:
`{"a": "hello world", "b": "x"}`. -/
def exPayload : Payload := [("a", .vstr "hello world"), ("b", .vstr "x")]

/-- The default retry configuration with jitter turned off. -/
def cfgNoJitter : RetryConfiguration := { jitter := false }

/-! ## Theorems -/

/-- Chunks are flushed on the payload's last key, so concatenating the
chunks (in chunk order, then in-chunk order) rebuilds the processed part of
the payload exactly. -/
theorem extract_chunks_go_join (item_cap size_cap : Nat) (lastKey : String) :
    ∀ (l cur : Payload) (cnt : Nat) (p : String × PyValue),
      l.getLast? = some p → p.1 = lastKey →
      (extract_chunks_go item_cap size_cap lastKey l cur cnt).flatten = cur ++ l := by
  intro l
  induction l with
  | nil => intro cur cnt p hp; simp at hp
  | cons kv rest ih =>
    intro cur cnt p hp hkey
    obtain ⟨k, v⟩ := kv
    by_cases hc : count_words_entries (cur ++ [(k, v)]) > size_cap ∨
        cnt + 1 ≥ item_cap ∨ k = lastKey
    · rw [extract_chunks_go, if_pos hc]
      cases rest with
      | nil => simp [extract_chunks_go]
      | cons q qs =>
        rw [List.flatten_cons, ih [] 0 p (by rw [← hp]; rfl) hkey]
        simp
    · rw [extract_chunks_go, if_neg hc]
      cases rest with
      | nil =>
        exfalso
        apply hc
        right; right
        have : p = (k, v) := by simpa using hp.symm
        rw [← hkey, this]
      | cons q qs =>
        rw [ih (cur ++ [(k, v)]) (cnt + 1) p (by rw [← hp]; rfl) hkey]
        simp

/-- The chunks of `_extract_payload_chunks` concatenate back to the
payload: key order is preserved and no entry is lost, duplicated or
invented. -/
theorem extract_payload_chunks_join (item_cap size_cap : Nat)
    (payload : Payload) :
    (extract_payload_chunks item_cap size_cap payload).flatten = payload := by
  unfold extract_payload_chunks
  cases hlast : payload.getLast? with
  | none => simp [List.getLast?_eq_none_iff.mp hlast]
  | some p =>
    rw [extract_chunks_go_join item_cap size_cap p.1 payload [] 0 p hlast rfl]
    simp

/-- Python dict assignment of a fresh key appends the pair. -/
theorem dict_insert_not_mem (d : Payload) (k : String) (v : PyValue)
    (h : k ∉ d.map Prod.fst) : dict_insert d k v = d ++ [(k, v)] := by
  unfold dict_insert
  rw [if_neg]
  intro hmem
  exact h (by simpa using hmem)

/-- `result.update(chunk)` with keys disjoint from the accumulator (and no
internal duplicates) is concatenation. -/
theorem dict_update_eq_append :
    ∀ (e d : Payload), ((d ++ e).map Prod.fst).Nodup →
      dict_update d e = d ++ e := by
  intro e
  induction e with
  | nil => intro d h; simp [dict_update]
  | cons kv rest ih =>
    intro d h
    obtain ⟨k, v⟩ := kv
    have hk : k ∉ d.map Prod.fst := by
      rw [List.map_append] at h
      intro hmem
      exact (List.disjoint_of_nodup_append h) hmem (by simp)
    have step : dict_update d ((k, v) :: rest) =
        dict_update (d ++ [(k, v)]) rest := by
      simp [dict_update, dict_insert_not_mem d k v hk]
    rw [step, ih (d ++ [(k, v)]) (by simpa using h)]
    simp

/-- Folding `result.update` over chunks whose concatenated keys are unique
yields the concatenation of the chunks. -/
theorem merge_chunks_eq_join_aux :
    ∀ (chunks : List Payload) (d : Payload),
      ((d ++ chunks.flatten).map Prod.fst).Nodup →
      List.foldl dict_update d chunks = d ++ chunks.flatten := by
  intro chunks
  induction chunks with
  | nil => intro d h; simp
  | cons c rest ih =>
    intro d h
    have hsub : (d ++ c).Sublist (d ++ (c :: rest).flatten) := by
      rw [List.flatten_cons, ← List.append_assoc]
      exact (d ++ c).sublist_append_left (rest.flatten)
    have hdc : ((d ++ c).map Prod.fst).Nodup :=
      List.Nodup.sublist (hsub.map Prod.fst) h
    rw [List.foldl_cons, dict_update_eq_append c d hdc,
      ih (d ++ c) (by simpa [List.append_assoc] using h)]
    simp

/-- C1: for every content payload (unique keys, insertion order) and caps
`item_cap ≥ 1`, `size_cap ≥ 1`, partitioning the payload with
`_extract_payload_chunks` and merging the chunks back in chunk order with
`result.update` (as `_localize_raw` does) yields a mapping equal to the
original payload, key iteration order included; concatenating the chunks
reproduces the payload exactly, so no key is lost, duplicated across
chunks, or added. -/
theorem partition_merge_roundtrip (item_cap size_cap : Nat) (payload : Payload)
    (hkeys : (payload.map Prod.fst).Nodup)
    (hic : 1 ≤ item_cap) (hsc : 1 ≤ size_cap) :
    merge_chunks (extract_payload_chunks item_cap size_cap payload) = payload ∧
    (extract_payload_chunks item_cap size_cap payload).flatten = payload := by
  have hj := extract_payload_chunks_join item_cap size_cap payload
  refine ⟨?_, hj⟩
  unfold merge_chunks
  rw [merge_chunks_eq_join_aux _ [] (by simpa [hj] using hkeys)]
  simpa using hj

/-- Witness for C1: the spec's scenario payload
`{"a": "hello world", "b": "x"}` with `item_cap = 10`, `size_cap = 1`. -/
theorem partition_merge_roundtrip_witness :
    merge_chunks (extract_payload_chunks 10 1 exPayload) = exPayload ∧
    (extract_payload_chunks 10 1 exPayload).flatten = exPayload :=
  partition_merge_roundtrip 10 1 exPayload (by simp [exPayload])
    (by norm_num) (by norm_num)

/-- The partition loop preserves: the current chunk is strictly below the
item cap and within the size cap; hence every chunk it emits has at most
`item_cap` items, was within `size_cap` words before its closing entry was
added, and is non-empty. -/
theorem extract_chunks_go_invariant (item_cap size_cap : Nat)
    (hic : 1 ≤ item_cap) (lastKey : String) :
    ∀ (l cur : Payload) (cnt : Nat), cnt = cur.length →
      cur.length < item_cap → count_words_entries cur ≤ size_cap →
      ∀ c ∈ extract_chunks_go item_cap size_cap lastKey l cur cnt,
        c.length ≤ item_cap ∧ count_words_entries c.dropLast ≤ size_cap ∧
          c ≠ [] := by
  intro l
  induction l with
  | nil => intro cur cnt _ _ _ c hc; simp [extract_chunks_go] at hc
  | cons kv rest ih =>
    intro cur cnt hcnt hlen hsize c hc
    obtain ⟨k, v⟩ := kv
    by_cases hcond : count_words_entries (cur ++ [(k, v)]) > size_cap ∨
        cnt + 1 ≥ item_cap ∨ k = lastKey
    · rw [extract_chunks_go, if_pos hcond] at hc
      rcases List.mem_cons.mp hc with hceq | hcmem
      · subst hceq
        refine ⟨?_, ?_, by simp⟩
        · simpa using Nat.succ_le_of_lt hlen
        · simpa [List.dropLast_concat] using hsize
      · exact ih [] 0 rfl (by simpa using hic) (by simp [count_words_entries]) c hcmem
    · rw [extract_chunks_go, if_neg hcond] at hc
      push_neg at hcond
      exact ih (cur ++ [(k, v)]) (cnt + 1) (by simp [hcnt])
        (by simpa [hcnt] using hcond.2.1) (by omega) c hc

/-- C2: for caps `item_cap ≥ 1` and `size_cap ≥ 1`, every chunk produced by
`_extract_payload_chunks` has item count at most `item_cap` and, with its
last-added entry removed, word count at most `size_cap`; every chunk of a
non-empty payload is non-empty; and an empty payload yields an empty
sequence of chunks. -/
theorem chunk_boundary_invariant (item_cap size_cap : Nat) (payload : Payload)
    (hic : 1 ≤ item_cap) (hsc : 1 ≤ size_cap) :
    (∀ c ∈ extract_payload_chunks item_cap size_cap payload,
        c.length ≤ item_cap ∧ count_words_entries c.dropLast ≤ size_cap) ∧
    (payload ≠ [] →
      ∀ c ∈ extract_payload_chunks item_cap size_cap payload, c ≠ []) ∧
    (payload = [] → extract_payload_chunks item_cap size_cap payload = []) := by
  unfold extract_payload_chunks
  cases hlast : payload.getLast? with
  | none =>
    have : payload = [] := List.getLast?_eq_none_iff.mp hlast
    subst this
    simp
  | some p =>
    have hne : payload ≠ [] := by
      intro h; subst h; simp at hlast
    have hinv := extract_chunks_go_invariant item_cap size_cap hic p.1 payload
      [] 0 rfl (by simpa using hic) (by simp [count_words_entries])
    refine ⟨fun c hc => ⟨(hinv c hc).1, (hinv c hc).2.1⟩,
      fun _ c hc => (hinv c hc).2.2, fun h => absurd h hne⟩

/-- Witness for C2: the spec's scenario payload with `item_cap = 10`,
`size_cap = 1`. -/
theorem chunk_boundary_invariant_witness :
    (∀ c ∈ extract_payload_chunks 10 1 exPayload,
        c.length ≤ 10 ∧ count_words_entries c.dropLast ≤ 1) ∧
    (exPayload ≠ [] → ∀ c ∈ extract_payload_chunks 10 1 exPayload, c ≠ []) ∧
    (exPayload = [] → extract_payload_chunks 10 1 exPayload = []) :=
  chunk_boundary_invariant 10 1 exPayload (by norm_num) (by norm_num)

/-- C3: an operation whose first attempt raises a failure whose wrapped
classification is non-retryable makes `execute_with_retry` raise the
retry-exhausted error after exactly one attempt, with retry-context
attempt 1 and a one-record history; the recorded exception is the wrapped
`LingoDevError`. -/
theorem nonretryable_first_attempt_exhausts {α : Type}
    (cfg : RetryConfiguration) (op : Nat → Except PyExc α) (e0 : PyExc)
    (hop : op 1 = .error e0)
    (hcls : classify_retryable cfg (wrap_error e0) = false) :
    execute_with_retry cfg op =
      .exhausted ⟨1, max 1 cfg.max_retries, wrap_error e0,
        [⟨1, wrap_error e0⟩]⟩ ∧
    (wrap_error e0).is_lingo = true := by
  constructor
  · have hsr : should_retry cfg (wrap_error e0) 1 = false := by
      unfold should_retry
      split
      · rfl
      · exact hcls
    unfold execute_with_retry
    obtain ⟨m, hm⟩ : ∃ m, max 1 cfg.max_retries = m + 1 :=
      ⟨max 1 cfg.max_retries - 1, by omega⟩
    rw [hm]
    simp only [execute_loop, hop, hsr]
    simp
  · cases e0 <;> simp [wrap_error, PyExc.is_lingo]

/-- Witness for C3: a raw HTTP 400 error on the first attempt under the
default configuration (`max_retries = 3`). -/
theorem nonretryable_first_attempt_exhausts_witness :
    execute_with_retry {}
        (fun _ => (.error (.rawHTTPError 400) : Except PyExc Nat)) =
      .exhausted ⟨1, max 1 ({} : RetryConfiguration).max_retries,
        wrap_error (.rawHTTPError 400), [⟨1, wrap_error (.rawHTTPError 400)⟩]⟩ ∧
    (wrap_error (.rawHTTPError 400)).is_lingo = true :=
  nonretryable_first_attempt_exhausts {} _ (.rawHTTPError 400) rfl rfl

/-- C4: for a failure whose classification alone permits retry,
`should_retry` returns false exactly when the 1-based attempt index has
reached `max_retries`, returns true below the cap, and returns false at or
above the cap for every failure whatever its classification. -/
theorem should_retry_cap (cfg : RetryConfiguration) (e : PyExc) (n : Nat)
    (hcls : classify_retryable cfg e = true) (hn : 1 ≤ n) :
    (should_retry cfg e n = false ↔ cfg.max_retries ≤ n) ∧
    (n < cfg.max_retries → should_retry cfg e n = true) ∧
    (∀ e2 : PyExc, cfg.max_retries ≤ n → should_retry cfg e2 n = false) := by
  by_cases h : cfg.max_retries ≤ n
  · exact ⟨by simp [should_retry, h], fun hlt => absurd h (by omega),
      fun e2 _ => by simp [should_retry, h]⟩
  · refine ⟨?_, fun _ => ?_, fun e2 hge => absurd hge h⟩
    · simp [should_retry, h, hcls]
    · simp [should_retry, h, hcls]

/-- Witness for C4: a network error (always-retryable classification) at
attempt 1 under the default configuration. -/
theorem should_retry_cap_witness :
    (should_retry {} .lingoNetworkError 1 = false ↔
      ({} : RetryConfiguration).max_retries ≤ 1) ∧
    (1 < ({} : RetryConfiguration).max_retries →
      should_retry {} .lingoNetworkError 1 = true) ∧
    (∀ e2 : PyExc, ({} : RetryConfiguration).max_retries ≤ 1 →
      should_retry {} e2 1 = false) :=
  should_retry_cap {} .lingoNetworkError 1 rfl (by norm_num)

/-- C5: with jitter disabled the computed backoff at attempt `n ≥ 1` equals
`min (backoff_factor * 2 ^ (n - 1)) max_backoff`; the delay never decreases
from one attempt to the next, and once the exponential term reaches the cap
the delay equals `max_backoff`. -/
theorem backoff_no_jitter (cfg : RetryConfiguration) (r : ℚ) (n : Nat)
    (hj : cfg.jitter = false) (hb : 0 ≤ cfg.backoff_factor) (hn : 1 ≤ n) :
    calculate_backoff cfg r n =
      min (cfg.backoff_factor * 2 ^ (n - 1)) cfg.max_backoff ∧
    calculate_backoff cfg r n ≤ calculate_backoff cfg r (n + 1) ∧
    (cfg.max_backoff ≤ cfg.backoff_factor * 2 ^ (n - 1) →
      calculate_backoff cfg r n = cfg.max_backoff) := by
  have heq : ∀ m : Nat, calculate_backoff cfg r m =
      min (cfg.backoff_factor * 2 ^ (m - 1)) cfg.max_backoff := by
    intro m; simp [calculate_backoff, hj]
  refine ⟨heq n, ?_, ?_⟩
  · rw [heq n, heq (n + 1)]
    refine min_le_min ?_ le_rfl
    refine mul_le_mul_of_nonneg_left ?_ hb
    refine pow_le_pow_right₀ (by norm_num) ?_
    omega
  · intro hcap
    rw [heq n]
    exact min_eq_right hcap

/-- Witness for C5: the default configuration without jitter, attempt 2. -/
theorem backoff_no_jitter_witness :
    calculate_backoff cfgNoJitter 0 2 =
      min (cfgNoJitter.backoff_factor * 2 ^ (2 - 1)) cfgNoJitter.max_backoff ∧
    calculate_backoff cfgNoJitter 0 2 ≤ calculate_backoff cfgNoJitter 0 (2 + 1) ∧
    (cfgNoJitter.max_backoff ≤ cfgNoJitter.backoff_factor * 2 ^ (2 - 1) →
      calculate_backoff cfgNoJitter 0 2 = cfgNoJitter.max_backoff) :=
  backoff_no_jitter cfgNoJitter 0 2 rfl (by norm_num [cfgNoJitter]) (by norm_num)

/-- Counterexample for C7: status 501 lies in the 500..599 range, yet
`LingoDevAPIError.is_retryable` classifies it non-retryable, and
`should_retry` under the default configuration refuses to retry it even on
attempt 1 (below the attempt cap). -/
theorem server_error_501_not_retryable :
    (500 ≤ 501 ∧ 501 < 600) ∧ api_is_retryable 501 = false ∧
    1 < ({} : RetryConfiguration).max_retries ∧
    should_retry {} (.lingoAPIError 501) 1 = false := by
  refine ⟨⟨by norm_num, by norm_num⟩, rfl, by norm_num [RetryConfiguration.max_retries], rfl⟩

/-- C7 amended: an API failure whose status is one of 500, 502, 503, 504
(the server errors in the fixed retryable set `{429, 500, 502, 503, 504}`)
is classified retryable, and `should_retry` retries it at any attempt index
below `max_retries`; other 5xx statuses (such as 501) are not retryable. -/
theorem default_server_errors_retryable (cfg : RetryConfiguration) (s n : Nat)
    (hs : s = 500 ∨ s = 502 ∨ s = 503 ∨ s = 504) (hn : n < cfg.max_retries) :
    api_is_retryable s = true ∧
    should_retry cfg (.lingoAPIError s) n = true := by
  have hret : api_is_retryable s = true := by
    rcases hs with h | h | h | h <;> subst h <;> rfl
  refine ⟨hret, ?_⟩
  unfold should_retry
  rw [if_neg (by omega)]
  simpa [classify_retryable] using hret

/-- Witness for C7 (amended): status 502 at attempt 1 under the default
configuration. -/
theorem default_server_errors_retryable_witness :
    api_is_retryable 502 = true ∧
    should_retry {} (.lingoAPIError 502) 1 = true :=
  default_server_errors_retryable {} 502 1 (Or.inr (Or.inl rfl))
    (by norm_num [RetryConfiguration.max_retries])

/-- C10: writing `b = min (backoff_factor * 2 ^ (n - 1)) max_backoff`, the
value of `calculate_backoff` lies in `[b, 5/4 * b)` for every jitter draw
`r ∈ [0, 1)`; when the exponential term has reached the cap and jitter is
on, the value is `max_backoff` inflated by the jitter (so it can exceed
`max_backoff`, the cap being applied before the jitter); the async handler
computes the identical function. -/
theorem backoff_jitter_bounds (cfg : RetryConfiguration) (r : ℚ) (n : Nat)
    (hb : 0 < cfg.backoff_factor) (hm : 0 < cfg.max_backoff)
    (hr0 : 0 ≤ r) (hr1 : r < 1) :
    min (cfg.backoff_factor * 2 ^ (n - 1)) cfg.max_backoff ≤
      calculate_backoff cfg r n ∧
    calculate_backoff cfg r n <
      (5 / 4) * min (cfg.backoff_factor * 2 ^ (n - 1)) cfg.max_backoff ∧
    (cfg.jitter = true → cfg.max_backoff ≤ cfg.backoff_factor * 2 ^ (n - 1) →
      calculate_backoff cfg r n =
        cfg.max_backoff + cfg.max_backoff * (1 / 4) * r) ∧
    async_calculate_backoff cfg r n = calculate_backoff cfg r n := by
  have hexp : 0 < cfg.backoff_factor * 2 ^ (n - 1) :=
    mul_pos hb (by positivity)
  have hbpos : 0 < min (cfg.backoff_factor * 2 ^ (n - 1)) cfg.max_backoff :=
    lt_min hexp hm
  have hval : calculate_backoff cfg r n =
      if cfg.jitter then
        min (cfg.backoff_factor * 2 ^ (n - 1)) cfg.max_backoff +
          min (cfg.backoff_factor * 2 ^ (n - 1)) cfg.max_backoff * (1 / 4) * r
      else min (cfg.backoff_factor * 2 ^ (n - 1)) cfg.max_backoff := rfl
  refine ⟨?_, ?_, ?_, rfl⟩
  · rw [hval]
    by_cases hj : cfg.jitter = true
    · rw [if_pos hj]; nlinarith [hbpos, hr0]
    · rw [if_neg hj]
  · rw [hval]
    by_cases hj : cfg.jitter = true
    · rw [if_pos hj]; nlinarith [hbpos, hr0, hr1]
    · rw [if_neg hj]; nlinarith [hbpos]
  · intro hj hcap
    rw [hval, if_pos hj, min_eq_right hcap]

/-- Witness for C10: the default configuration (jitter on), attempt 1,
jitter draw 1/2. -/
theorem backoff_jitter_bounds_witness :
    min (({} : RetryConfiguration).backoff_factor * 2 ^ (1 - 1))
        ({} : RetryConfiguration).max_backoff ≤
      calculate_backoff {} (1 / 2) 1 ∧
    calculate_backoff {} (1 / 2) 1 <
      (5 / 4) * min (({} : RetryConfiguration).backoff_factor * 2 ^ (1 - 1))
        ({} : RetryConfiguration).max_backoff ∧
    (({} : RetryConfiguration).jitter = true →
      ({} : RetryConfiguration).max_backoff ≤
        ({} : RetryConfiguration).backoff_factor * 2 ^ (1 - 1) →
      calculate_backoff {} (1 / 2) 1 =
        ({} : RetryConfiguration).max_backoff +
          ({} : RetryConfiguration).max_backoff * (1 / 4) * (1 / 2)) ∧
    async_calculate_backoff {} (1 / 2) 1 = calculate_backoff {} (1 / 2) 1 :=
  backoff_jitter_bounds {} (1 / 2) 1
    (by norm_num [RetryConfiguration.backoff_factor])
    (by norm_num [RetryConfiguration.max_backoff]) (by norm_num) (by norm_num)

/-- C6 (spec-modelled): a numerically valid server-supplied minimum-wait
hint makes the computed delay the larger of the hint and the exponential
value, still jittered: the delay is never below the hint, and never below
the delay the same draw would produce without the hint. -/
theorem retry_delay_respects_hint (base_delay max_delay jitter_ratio r h : ℚ)
    (attempt : Nat) (hh : 0 ≤ h) (hjr : 0 ≤ jitter_ratio) (hr : 0 ≤ r) :
    h ≤ calculate_retry_delay base_delay max_delay jitter_ratio r attempt
          (some h) ∧
    calculate_retry_delay base_delay max_delay jitter_ratio r attempt none ≤
      calculate_retry_delay base_delay max_delay jitter_ratio r attempt
        (some h) := by
  have hsome : calculate_retry_delay base_delay max_delay jitter_ratio r attempt
      (some h) =
      max h (min (base_delay * 2 ^ (attempt - 1)) max_delay) +
        max h (min (base_delay * 2 ^ (attempt - 1)) max_delay) *
          jitter_ratio * r := rfl
  have hnone : calculate_retry_delay base_delay max_delay jitter_ratio r attempt
      none =
      min (base_delay * 2 ^ (attempt - 1)) max_delay +
        min (base_delay * 2 ^ (attempt - 1)) max_delay * jitter_ratio * r := rfl
  have hmono : min (base_delay * 2 ^ (attempt - 1)) max_delay * jitter_ratio * r ≤
      max h (min (base_delay * 2 ^ (attempt - 1)) max_delay) *
        jitter_ratio * r :=
    mul_le_mul_of_nonneg_right
      (mul_le_mul_of_nonneg_right (le_max_right _ _) hjr) hr
  have hcore : (0 : ℚ) ≤ max h (min (base_delay * 2 ^ (attempt - 1)) max_delay) :=
    le_trans hh (le_max_left _ _)
  have hjit : 0 ≤ max h (min (base_delay * 2 ^ (attempt - 1)) max_delay) *
      jitter_ratio * r :=
    mul_nonneg (mul_nonneg hcore hjr) hr
  constructor
  · rw [hsome]
    have := le_max_left h (min (base_delay * 2 ^ (attempt - 1)) max_delay)
    linarith
  · rw [hsome, hnone]
    have := le_max_right h (min (base_delay * 2 ^ (attempt - 1)) max_delay)
    linarith

/-- Witness for C6: hint 5 seconds, base delay 1/10, cap 60, jitter ratio
1/10, draw 1/2, attempt 1. -/
theorem retry_delay_respects_hint_witness :
    (5 : ℚ) ≤ calculate_retry_delay (1/10) 60 (1/10) (1/2) 1 (some 5) ∧
    calculate_retry_delay (1/10) 60 (1/10) (1/2) 1 none ≤
      calculate_retry_delay (1/10) 60 (1/10) (1/2) 1 (some 5) :=
  retry_delay_respects_hint (1/10) 60 (1/10) (1/2) 5 1
    (by norm_num) (by norm_num) (by norm_num)

/-- C8 (spec-modelled): every execution of the semaphore-guarded dispatcher
conserves in-flight sends plus free permits, so no reachable state has more
than `limit` chunk sends in flight simultaneously. -/
theorem dispatch_semaphore_bound (numChunks limit : Nat) (s : DispatchState)
    (h : DispatchReachable numChunks limit s) :
    s.inFlight + s.permits = limit ∧ s.inFlight ≤ limit := by
  have key : s.inFlight + s.permits = limit := by
    induction h with
    | refl => show 0 + limit = limit; omega
    | tail hab hbc ih =>
      cases hbc with
      | start hp hq => dsimp only; omega
      | finish hf => dsimp only; omega
  exact ⟨key, by omega⟩

/-- Witness for C8: after starting one of three chunks under limit 2, one
send is in flight with one free permit. -/
theorem dispatch_semaphore_bound_witness :
    (⟨2, 1, 1, 0⟩ : DispatchState).inFlight +
      (⟨2, 1, 1, 0⟩ : DispatchState).permits = 2 ∧
    (⟨2, 1, 1, 0⟩ : DispatchState).inFlight ≤ 2 :=
  dispatch_semaphore_bound 3 2 ⟨2, 1, 1, 0⟩
    (Relation.ReflTransGen.single
      (DispatchStep.start (dispatch_init 3 2) (by decide) (by decide)))

/-- The sequential progress list reports once per chunk. -/
theorem sequential_progress_length (total : Nat) :
    ∀ (l : List Payload) (i : Nat),
      (sequential_progress total i l).length = l.length := by
  intro l
  induction l with
  | nil => intro i; rfl
  | cons c rest ih => intro i; simp [sequential_progress, ih]

/-- The entry at position `j` of the sequential progress list started at
index `i` is the rounded percentage for chunk `i + j`. -/
theorem sequential_progress_get (total : Nat) :
    ∀ (l : List Payload) (i j : Nat), j < l.length →
      (sequential_progress total i l)[j]? =
        some (pyRound ((((i + j : Nat) : ℚ) + 1) / (total : ℚ) * 100)) := by
  intro l
  induction l with
  | nil => intro i j hj; simp at hj
  | cons c rest ih =>
    intro i j hj
    cases j with
    | zero => simp [sequential_progress]
    | succ j2 =>
      have hrec := ih (i + 1) j2 (by simpa using hj)
      have harith : i + 1 + j2 = i + (j2 + 1) := by omega
      simpa [sequential_progress, harith] using hrec

/-- C9: supplying a progress callback together with `concurrent = true`
silently takes the sequential branch (the concurrent fan-out runs only when
`concurrent` holds and no callback is given); the callback is then invoked
once per chunk, in input order, with percentage
`round(((i + 1) / total_chunk_count) * 100)` for the chunk at 0-based
index `i`. -/
theorem concurrent_with_callback_sequential (item_cap size_cap : Nat)
    (payload : Payload) :
    (∀ c h : Bool,
      (localize_raw_trace item_cap size_cap payload h c).usedConcurrent =
        (c && !h)) ∧
    (localize_raw_trace item_cap size_cap payload true true).usedConcurrent
        = false ∧
    (localize_raw_trace item_cap size_cap payload true true).progressCalls.length
        = (extract_payload_chunks item_cap size_cap payload).length ∧
    (∀ j, j < (extract_payload_chunks item_cap size_cap payload).length →
      (localize_raw_trace item_cap size_cap payload true true).progressCalls[j]? =
        some (pyRound (((j : ℚ) + 1) /
          ((extract_payload_chunks item_cap size_cap payload).length : ℚ) *
            100))) := by
  refine ⟨?_, ?_, ?_, ?_⟩
  · intro c h
    cases c <;> cases h <;> simp [localize_raw_trace]
  · simp [localize_raw_trace]
  · simp [localize_raw_trace, sequential_progress_length]
  · intro j hj
    have hget := sequential_progress_get
      (extract_payload_chunks item_cap size_cap payload).length
      (extract_payload_chunks item_cap size_cap payload) 0 j hj
    simpa [localize_raw_trace] using hget

/-- Witness for C9: the scenario payload splits into two chunks; with a
callback and `concurrent = true` the sequential branch runs and the first
invocation reports its percentage. -/
theorem concurrent_with_callback_sequential_witness :
    (localize_raw_trace 10 1 exPayload true true).usedConcurrent = false ∧
    (localize_raw_trace 10 1 exPayload true true).progressCalls[0]? =
      some (pyRound (((0 : ℚ) + 1) /
        ((extract_payload_chunks 10 1 exPayload).length : ℚ) * 100)) :=
  ⟨(concurrent_with_callback_sequential 10 1 exPayload).2.1,
   (concurrent_with_callback_sequential 10 1 exPayload).2.2.2 0 (by decide)⟩

end LingoSDK
